import Mathlib

/-!
Verification of the study-group bot (src/app.py) against its specification.

The development shallowly embeds the Python source: Python dicts (which
preserve insertion order) become association lists with in-place update,
the mutex-guarded LocalState becomes a record threaded explicitly, the
Google-Sheets worksheet becomes a list of rows, and outbound side effects
(record-gateway calls, Slack posts) are returned as explicit call lists.
Ordering tokens (Slack event_ts strings, sorted via float in the source)
are modelled as natural numbers.
-/

/-- Association list with Python-dict semantics: lookup returns the value
bound to the first (unique) occurrence of the key. -/
def dictGet {α : Type} (d : List (String × α)) (k : String) : Option α :=
  match d with
  | [] => none
  | (k', v) :: rest => if k' = k then some v else dictGet rest k

/-- Python dict assignment: an existing key keeps its position in iteration
order and only its value is replaced; a new key is appended at the end. -/
def dictSet {α : Type} (d : List (String × α)) (k : String) (v : α) : List (String × α) :=
  match d with
  | [] => [(k, v)]
  | (k', v') :: rest => if k' = k then (k, v) :: rest else (k', v') :: dictSet rest k v

/-- Update the value bound to a key in place; no change when the key is absent. -/
def dictModify {α : Type} (d : List (String × α)) (k : String) (f : α → α) : List (String × α) :=
  match d with
  | [] => []
  | (k', v') :: rest => if k' = k then (k', f v') :: rest else (k', v') :: dictModify rest k f

/-- One entry of the speaker-request ledger: app.py stores
the dict value written by LocalState.add_speaker_request. The
requested_at token (an event_ts string ordered by its float value in
get_speakers) is modelled as a natural number. -/
structure SpeakerInfo where
  active : Bool
  requested_at : Nat
deriving DecidableEq, Repr

/-- Speaker ledger of one occurrence key: participant id to SpeakerInfo,
in dict insertion order. -/
abbrev SpeakerDay := List (String × SpeakerInfo)

/-- A registered declaration-prompt message (value of
state["declaration_messages"][date_key] in app.py). -/
structure PromptMsg where
  channel : String
  ts : String
deriving DecidableEq, Repr

/-- The durable state document of LocalState in app.py: two top-level
mappings, both in dict insertion order. -/
structure LocalState where
  declaration_messages : List (String × PromptMsg)
  speaker_requests : List (String × SpeakerDay)
deriving DecidableEq, Repr

/-- Fresh LocalState (the constructor default when no state file exists). -/
def emptyState : LocalState := ⟨[], []⟩

/-- LocalState.set_declaration_message from app.py. -/
def set_declaration_message (st : LocalState) (date_key channel ts : String) : LocalState :=
  { st with declaration_messages := dictSet st.declaration_messages date_key ⟨channel, ts⟩ }

/-- LocalState.get_declaration_message from app.py. -/
def get_declaration_message (st : LocalState) (date_key : String) : Option PromptMsg :=
  dictGet st.declaration_messages date_key

/-- LocalState.get_date_by_declaration_message from app.py: linear scan of
the registered prompts in iteration order, first match wins. -/
def get_date_by_declaration_message (st : LocalState) (channel ts : String) : Option String :=
  (st.declaration_messages.find? fun p => decide (p.2.channel = channel ∧ p.2.ts = ts)).map Prod.fst

/-- LocalState.add_speaker_request from app.py: setdefault the day dict,
then overwrite the participant's entry with active plus the new token. -/
def add_speaker_request (st : LocalState) (date_key user_id : String) (event_ts : Nat) : LocalState :=
  { st with
    speaker_requests :=
      dictSet st.speaker_requests date_key
        (dictSet ((dictGet st.speaker_requests date_key).getD []) user_id ⟨true, event_ts⟩) }

/-- LocalState.remove_speaker_request from app.py: setdefault the day dict
(note: this inserts an empty day when the key is absent), then set
active to false when the participant has an entry. -/
def remove_speaker_request (st : LocalState) (date_key user_id : String) : LocalState :=
  { st with
    speaker_requests :=
      dictSet st.speaker_requests date_key
        (dictModify ((dictGet st.speaker_requests date_key).getD []) user_id
          fun i => { i with active := false }) }

/-- Comparison used by get_speakers: sort key is the requested_at token
(float(x[1]) in the source, modelled as the Nat token). -/
def leTok (a b : String × Nat) : Prop := a.2 ≤ b.2

instance : DecidableRel leTok := fun a b => Nat.decLe a.2 b.2

instance : IsTotal (String × Nat) leTok := ⟨fun a b => Nat.le_total a.2 b.2⟩

instance : IsTrans (String × Nat) leTok := ⟨fun _ _ _ => Nat.le_trans⟩

/-- The (id, token) pairs of the active entries of a day, in dict
iteration order, as built by the list comprehension in get_speakers. -/
def activePairs (day : SpeakerDay) : List (String × Nat) :=
  (day.filter fun p => p.2.active).map fun p => (p.1, p.2.requested_at)

/-- The active pairs after the stable sort by token (Python list.sort is
stable; List.insertionSort with a total preorder is stable). -/
def sortedActive (day : SpeakerDay) : List (String × Nat) :=
  List.insertionSort leTok (activePairs day)

/-- The first two entries of the sorted active list (active[:2]). -/
def chosenPairs (day : SpeakerDay) : List (String × Nat) :=
  (sortedActive day).take 2

/-- Speaker roster derived from one day ledger, as get_speakers computes it. -/
def speakersOfDay (day : SpeakerDay) : List String :=
  (chosenPairs day).map Prod.fst

/-- LocalState.get_speakers from app.py: filter active entries, stable sort
ascending by token, truncate to 2, return the participant ids. -/
def get_speakers (st : LocalState) (date_key : String) : List String :=
  speakersOfDay ((dictGet st.speaker_requests date_key).getD [])

/-- One speaker-toggle event against a fixed occurrence key. -/
inductive SpeakerEv where
  | add (u : String) (t : Nat)
  | remove (u : String)
deriving DecidableEq, Repr

/-- Effect of one toggle event on a single day ledger. -/
def dayApply (day : SpeakerDay) : SpeakerEv → SpeakerDay
  | .add u t => dictSet day u ⟨true, t⟩
  | .remove u => dictModify day u fun i => { i with active := false }

/-- Day ledger reached from the empty ledger by a toggle-event trace. -/
def runTrace (evs : List SpeakerEv) : SpeakerDay :=
  evs.foldl dayApply []

/-- Effect of one toggle event on the full state store, through the
LocalState operations of app.py. -/
def stApply (k : String) (st : LocalState) : SpeakerEv → LocalState
  | .add u t => add_speaker_request st k u t
  | .remove u => remove_speaker_request st k u

/-- State store reached from the fresh state by a toggle-event trace on one key. -/
def runToggles (k : String) (evs : List SpeakerEv) : LocalState :=
  evs.foldl (stApply k) emptyState

/-- Reaction glyph to attendance status table ATTENDANCE_EMOJIS of app.py. -/
def ATTENDANCE_EMOJIS : List (String × String) :=
  [("white_check_mark", "対面"), ("computer", "オンライン"), ("zzz", "欠席")]

/-- SPEAKER_EMOJI of app.py. -/
def SPEAKER_EMOJI : String := "microphone"

/-- The fixed literal topic marker (constant named TOPIC_PREFIX in app.py). -/
def TOPIC_MARKER : String := "テーマ："

/-- One data row of the 出席管理 worksheet under the current 6-column
layout: 日付, 参加者, 対面/オンライン, 発表の有無, 発表テーマ,
SlackユーザーID. Legacy rows carry an empty user_id. -/
structure SheetRow where
  date : String
  participant : String
  attendance : String
  flag : String
  topic : String
  user_id : String
deriving DecidableEq, Repr

/-- The data rows of the worksheet (the header row is modelled away:
SheetRepository._ensure_headers only rewrites the header row in place and
never touches data rows). Model row i sits at worksheet row i + 2. -/
abbrev Sheet := List SheetRow

/-- In-place update of the row at one 0-based index. -/
def listModify {α : Type} (l : List α) (i : Nat) (f : α → α) : List α :=
  match l, i with
  | [], _ => []
  | r :: rest, 0 => f r :: rest
  | r :: rest, n + 1 => r :: listModify rest n f

/-- SheetRepository._find_row from app.py: first row whose 日付 equals the
date key and whose SlackユーザーID equals the participant id (the code's
1-based worksheet index row i + 2 is modelled as the 0-based index i). -/
def find_row (rows : Sheet) (date_key user_id : String) : Option Nat :=
  match rows with
  | [] => none
  | r :: rest =>
    if r.date = date_key ∧ r.user_id = user_id then some 0
    else (find_row rest date_key user_id).map (· + 1)

/-- SheetRepository.upsert_attendance from app.py: when a row matches,
rewrite cells B:C (participant, attendance) and F (user id) of that row;
otherwise append a fresh row with empty flag and topic columns. -/
def upsert_attendance (rows : Sheet) (date_key user_id participant attendance : String) : Sheet :=
  match find_row rows date_key user_id with
  | some i =>
    listModify rows i fun r =>
      { r with participant := participant, attendance := attendance, user_id := user_id }
  | none => rows ++ [⟨date_key, participant, attendance, "", "", user_id⟩]

/-- SheetRepository.update_speaker_flags from app.py: for every row of the
given date key, rewrite cell D to a circle mark when the row's user id is
in the given id list and to the empty string otherwise; other rows are
untouched. -/
def update_speaker_flags (rows : Sheet) (date_key : String) (speaker_user_ids : List String) : Sheet :=
  rows.map fun r =>
    if r.date = date_key then
      { r with flag := if r.user_id ∈ speaker_user_ids then "○" else "" }
    else r

/-- SheetRepository.update_topic from app.py: rewrite cell E of the
matching row; no change when no row matches. -/
def update_topic (rows : Sheet) (date_key user_id topic : String) : Sheet :=
  match find_row rows date_key user_id with
  | some i => listModify rows i fun r => { r with topic := topic }
  | none => rows

/-- One call against the external record gateway (SheetRepository). -/
inductive RepoCall where
  | upsertAttendance (date_key user_id participant attendance : String)
  | updateSpeakerFlags (date_key : String) (ids : List String)
  | updateTopic (date_key user_id topic : String)
deriving DecidableEq, Repr

/-- A reaction_added / reaction_removed Slack event as read by
StudyGroupBot._handle_reaction. The event_ts ordering token is a Nat. -/
structure ReactionEvent where
  itemType : String
  channel : String
  ts : String
  user : String
  reaction : String
  event_ts : Nat
deriving DecidableEq, Repr

/-- StudyGroupBot._handle_reaction from app.py. The display-name
resolution (users_info plus the process-lifetime name cache, outside the
state store) is abstracted as the function names. Returns the new state
store and the record-gateway calls issued, in order. -/
def handle_reaction (names : String → String) (st : LocalState) (e : ReactionEvent)
    (added : Bool) : LocalState × List RepoCall :=
  if e.itemType ≠ "message" then (st, [])
  else
    match get_date_by_declaration_message st e.channel e.ts with
    | none => (st, [])
    | some dk =>
      let uname := names e.user
      let attCalls : List RepoCall :=
        match dictGet ATTENDANCE_EMOJIS e.reaction, added with
        | some att, true =>
          [RepoCall.upsertAttendance dk e.user uname att,
           RepoCall.updateSpeakerFlags dk (get_speakers st dk)]
        | _, _ => []
      if e.reaction = SPEAKER_EMOJI then
        let st2 :=
          if added then add_speaker_request st dk e.user e.event_ts
          else remove_speaker_request st dk e.user
        (st2, attCalls ++ [RepoCall.updateSpeakerFlags dk (get_speakers st2 dk)])
      else (st, attCalls)

/-- A message event as read by StudyGroupBot._handle_thread_message. -/
structure MessageEvent where
  subtype : Option String
  thread_ts : Option String
  channel : String
  text : String
  user : String
deriving DecidableEq, Repr

/-- StudyGroupBot._handle_thread_message from app.py. The method never
mutates the state store (it only reads it), so only the record-gateway
calls are returned. The empty-string guard mirrors Python falsiness of
thread_ts. -/
def handle_thread_message (st : LocalState) (e : MessageEvent) : List RepoCall :=
  if e.subtype ≠ none then []
  else
    match e.thread_ts with
    | none => []
    | some tts =>
      if tts = "" then []
      else
        match get_date_by_declaration_message st e.channel tts with
        | none => []
        | some dk =>
          if ¬ e.text.startsWith TOPIC_MARKER then []
          else if e.user ∉ get_speakers st dk then []
          else
            let topic := (e.text.drop TOPIC_MARKER.length).trim
            if topic = "" then []
            else [RepoCall.updateTopic dk e.user topic]

/-- One outbound Slack posting call. -/
inductive SlackPost where
  | declaration (channel date_key : String)
deriving DecidableEq, Repr

/-- StudyGroupBot.post_declaration_message from app.py: post the prompt,
then register its descriptor under today's key (the message template text
is outside the verified core; newTs is the ts of the Slack response). -/
def post_declaration_message (st : LocalState) (todayKey channelId newTs : String) :
    LocalState × List SlackPost :=
  (set_declaration_message st todayKey channelId newTs,
   [SlackPost.declaration channelId todayKey])

/-- StudyGroupBot.ensure_daily_declaration_posted from app.py: runs only on
Mon/Wed/Fri (weekday 0, 2, 4) at hour 9 or later, and only when no prompt
is registered for today's key. -/
def ensure_daily_declaration_posted (weekday hour : Nat) (st : LocalState)
    (todayKey channelId newTs : String) : LocalState × List SlackPost :=
  if weekday ≠ 0 ∧ weekday ≠ 2 ∧ weekday ≠ 4 then (st, [])
  else if hour < 9 then (st, [])
  else if (get_declaration_message st todayKey).isSome then (st, [])
  else post_declaration_message st todayKey channelId newTs

/-- Repeated runs of the self-healing check, accumulating every posting
call issued across the runs. -/
def ensureIter (n weekday hour : Nat) (st : LocalState) (todayKey channelId newTs : String) :
    LocalState × List SlackPost :=
  match n with
  | 0 => (st, [])
  | m + 1 =>
    let r := ensure_daily_declaration_posted weekday hour st todayKey channelId newTs
    let r2 := ensureIter m weekday hour r.1 todayKey channelId newTs
    (r2.1, r.2 ++ r2.2)

/-- The required environment keys of Settings.from_env in app.py. -/
def REQUIRED_ENV_KEYS : List String :=
  ["SLACK_BOT_TOKEN", "SLACK_SIGNING_SECRET", "SLACK_CHANNEL_ID", "MEET_URL",
   "GOOGLE_SPREADSHEET_ID"]

/-- The required keys that are missing or empty (Python falsiness of
os.environ.get), as computed by Settings.from_env. -/
def missingKeys (env : String → Option String) : List String :=
  REQUIRED_ENV_KEYS.filter fun k => (env k).getD "" = ""

/-- The HTTP surface built by create_flask_app: the fixed status each
route answers with, with none standing for delegation to the live Slack
handler. -/
structure RouteSet where
  slackEventsStatus : Option Nat
  healthzStatus : Nat
deriving DecidableEq, Repr

/-- create_flask_app from app.py: when Settings.from_env raises (a
required key missing or empty), or when constructing the bot raises, the
app still serves both routes, answering 503 on POST /slack/events and 500
on GET /healthz; otherwise /slack/events delegates to the bot handler and
/healthz answers 200. -/
def create_flask_app (env : String → Option String) (botInitOk : Bool) : RouteSet :=
  if missingKeys env ≠ [] then ⟨some 503, 500⟩
  else if botInitOk = false then ⟨some 503, 500⟩
  else ⟨none, 200⟩

/-- Ledger entry enriched with the arrival position of the latest
activating add event, used only to state the specification's tie-break. -/
structure ArrivalInfo where
  active : Bool
  requested_at : Nat
  arrivedAt : Nat
deriving DecidableEq, Repr

/-- Modelled from the spec side of claim C1: replay a toggle trace while
recording, for each participant, the position in the event sequence of
the latest add that produced the standing request. -/
def arrivalRunAux (day : List (String × ArrivalInfo)) (i : Nat) :
    List SpeakerEv → List (String × ArrivalInfo)
  | [] => day
  | .add u t :: rest => arrivalRunAux (dictSet day u ⟨true, t, i⟩) (i + 1) rest
  | .remove u :: rest =>
    arrivalRunAux (dictModify day u fun a => { a with active := false }) (i + 1) rest

/-- Lexicographic comparison by (token, arrival position): the spec's
stated ordering of the roster, ties between equal tokens broken by
arrival order of the standing requests. -/
def leArrival (a b : String × Nat × Nat) : Prop :=
  a.2.1 < b.2.1 ∨ (a.2.1 = b.2.1 ∧ a.2.2 ≤ b.2.2)

instance : DecidableRel leArrival := fun _ _ =>
  inferInstanceAs (Decidable (_ ∨ _))

/-- Modelled from the spec side of claim C1: the roster the claim
describes, with active entries sorted ascending by token and ties between
equal tokens broken by arrival order (the order, among the events of the
trace, of each participant's latest activating add), truncated to 2. -/
def getSpeakersByArrival (evs : List SpeakerEv) : List String :=
  let day := arrivalRunAux [] 0 evs
  let actv := (day.filter fun p => p.2.active).map fun p => (p.1, p.2.requested_at, p.2.arrivedAt)
  ((List.insertionSort leArrival actv).take 2).map Prod.fst

/-- Modelled from the spec side of claim C3: row matching keyed by
(occurrence_key, participant_id) when the id column holds a value, and
by (occurrence_key, display_name) for legacy rows without an id. -/
def find_row_spec (rows : Sheet) (date_key user_id participant : String) : Option Nat :=
  match rows with
  | [] => none
  | r :: rest =>
    if r.date = date_key ∧ (r.user_id = user_id ∨ (r.user_id = "" ∧ r.participant = participant))
    then some 0
    else (find_row_spec rest date_key user_id participant).map (· + 1)

/-- Modelled from the spec side of claim C5: the topic remainder after the
fixed marker, trimmed. -/
def threadTopic (e : MessageEvent) : String :=
  (e.text.drop TOPIC_MARKER.length).trim

/-- Modelled from the spec side of claim C5: update_topic is called with
the trimmed remainder exactly when the message has no subtype, carries a
thread-parent reference that resolves to an occurrence key, its text
begins with the fixed literal marker, the author is currently in the
top-2 active roster for that key, and the trimmed remainder is non-empty;
in every other case, no gateway call at all. -/
def handle_thread_message_spec (st : LocalState) (e : MessageEvent) : List RepoCall :=
  match e.subtype, e.thread_ts with
  | none, some tts =>
    match get_date_by_declaration_message st e.channel tts with
    | some dk =>
      if tts ≠ "" ∧ e.text.startsWith TOPIC_MARKER ∧ e.user ∈ get_speakers st dk ∧
          threadTopic e ≠ "" then
        [RepoCall.updateTopic dk e.user (threadTopic e)]
      else []
    | none => []
  | _, _ => []

lemma dictGet_dictSet_self {α : Type} (d : List (String × α)) (k : String) (v : α) :
    dictGet (dictSet d k v) k = some v := by
  induction d with
  | nil => simp [dictSet, dictGet]
  | cons p rest ih =>
    obtain ⟨k', v'⟩ := p
    by_cases hk : k' = k
    · simp [dictSet, dictGet, hk]
    · simp [dictSet, dictGet, hk, ih]

lemma dictSet_eq_of_get {α : Type} {d : List (String × α)} {k : String} {v : α}
    (h : dictGet d k = some v) : dictSet d k v = d := by
  induction d with
  | nil => simp [dictGet] at h
  | cons p rest ih =>
    obtain ⟨k', v'⟩ := p
    by_cases hk : k' = k
    · rw [dictGet, if_pos hk] at h
      obtain rfl : v' = v := by injection h
      simp [dictSet, hk]
    · rw [dictGet, if_neg hk] at h
      simp [dictSet, hk, ih h]

lemma dictModify_absent {α : Type} {d : List (String × α)} {k : String} (f : α → α)
    (h : dictGet d k = none) : dictModify d k f = d := by
  induction d with
  | nil => rfl
  | cons p rest ih =>
    obtain ⟨k', v'⟩ := p
    by_cases hk : k' = k
    · rw [dictGet, if_pos hk] at h; exact absurd h (by simp)
    · rw [dictGet, if_neg hk] at h
      simp [dictModify, hk, ih h]

lemma dictModify_fixpoint {α : Type} {d : List (String × α)} {k : String} {f : α → α}
    (hfix : ∀ v, dictGet d k = some v → f v = v) : dictModify d k f = d := by
  induction d with
  | nil => rfl
  | cons p rest ih =>
    obtain ⟨k', v'⟩ := p
    by_cases hk : k' = k
    · have : f v' = v' := hfix v' (by rw [dictGet, if_pos hk])
      simp [dictModify, hk, this]
    · have : ∀ v, dictGet rest k = some v → f v = v := by
        intro v hv; exact hfix v (by rw [dictGet, if_neg hk]; exact hv)
      simp [dictModify, hk, ih this]

/-- C7 counterexample: calling remove_speaker_request on a key that has no
ledger at all does not leave the state store unchanged — the setdefault
call inserts an empty ledger for that key into the speaker-request
mapping, so the persisted state document changes as well. -/
theorem c7_remove_counterexample :
    remove_speaker_request emptyState "2024/06/03" "U1" ≠ emptyState ∧
    (remove_speaker_request emptyState "2024/06/03" "U1").speaker_requests =
      [("2024/06/03", [])] ∧
    emptyState.speaker_requests = [] := by
  decide

/-- C7 (amended): when the occurrence key is already present in the
speaker-request mapping and the participant either has no entry in that
ledger or is already inactive, remove_speaker_request leaves the entire
state store unchanged. -/
theorem c7_remove_noop (st : LocalState) (k u : String) (day : SpeakerDay)
    (hk : dictGet st.speaker_requests k = some day)
    (hu : dictGet day u = none ∨ ∃ i, dictGet day u = some i ∧ i.active = false) :
    remove_speaker_request st k u = st := by
  have hday : dictModify day u (fun i => { i with active := false }) = day := by
    cases hu with
    | inl h => exact dictModify_absent _ h
    | inr h =>
      obtain ⟨i, hi, hact⟩ := h
      refine dictModify_fixpoint ?_
      intro v hv
      rw [hi] at hv
      obtain rfl : i = v := by injection hv
      cases i
      simp_all
  unfold remove_speaker_request
  rw [hk, Option.getD_some, hday, dictSet_eq_of_get hk]

/-- C7 witness: the no-op case evaluated on a concrete state where the
key holds a ledger with one inactive entry. -/
theorem c7_remove_noop_witness :
    remove_speaker_request
      (LocalState.mk [] [("2024/06/03", [("U1", ⟨false, 7⟩)])]) "2024/06/03" "U2" =
      LocalState.mk [] [("2024/06/03", [("U1", ⟨false, 7⟩)])] :=
  c7_remove_noop _ _ _ [("U1", ⟨false, 7⟩)] (by decide) (Or.inl (by decide))

/-- C9 counterexample: with every required setting missing, the app is
created in its unavailable form, but the healthz endpoint answers 500,
not the service-unavailable status 503 the claim asserts for every
inbound endpoint. -/
theorem c9_flask_counterexample :
    missingKeys (fun _ => none) ≠ [] ∧
    (create_flask_app (fun _ => none) true).healthzStatus = 500 ∧
    (create_flask_app (fun _ => none) true).healthzStatus ≠ 503 := by
  decide

/-- C9 (amended): when a required configuration setting is missing at
startup, the process still runs and serves both endpoints without
crashing: the Slack events endpoint responds 503 (service unavailable)
while the health endpoint responds 500. -/
theorem c9_flask_amended (env : String → Option String) (b : Bool)
    (h : missingKeys env ≠ []) :
    create_flask_app env b = ⟨some 503, 500⟩ := by
  unfold create_flask_app
  rw [if_pos h]

/-- C9 witness: the amended statement at the empty environment. -/
theorem c9_flask_amended_witness :
    create_flask_app (fun _ => none) true = ⟨some 503, 500⟩ :=
  c9_flask_amended (fun _ => none) true (by simp [missingKeys, REQUIRED_ENV_KEYS])

lemma ensure_posted_noop {st : LocalState} {todayKey : String} {m : PromptMsg}
    (h : get_declaration_message st todayKey = some m) (wd hr : Nat) (ch ts : String) :
    ensure_daily_declaration_posted wd hr st todayKey ch ts = (st, []) := by
  unfold ensure_daily_declaration_posted
  split
  · rfl
  · split
    · rfl
    · split
      · rfl
      · rename_i h3
        rw [h] at h3
        simp at h3

/-- C8: when a prompt descriptor is already registered for today's key,
any number of runs of the self-healing check issues zero posting calls
and leaves the state store untouched, whatever the weekday and hour. -/
theorem c8_ensure_noop (wd hr : Nat) (st : LocalState) (todayKey ch ts : String)
    (m : PromptMsg) (h : get_declaration_message st todayKey = some m) :
    ∀ n, ensureIter n wd hr st todayKey ch ts = (st, []) := by
  intro n
  induction n with
  | zero => rfl
  | succ k ih =>
    unfold ensureIter
    rw [ensure_posted_noop h]
    simp [ih]

/-- C8 witness: three runs on a Monday at hour 10 with the prompt
registered for today produce no post and no state change. -/
theorem c8_ensure_noop_witness :
    ensureIter 3 0 10 (LocalState.mk [("2024/06/03", ⟨"C01", "1.0"⟩)] [])
      "2024/06/03" "C01" "2.0" =
      (LocalState.mk [("2024/06/03", ⟨"C01", "1.0"⟩)] [], []) :=
  c8_ensure_noop 0 10 _ "2024/06/03" "C01" "2.0" ⟨"C01", "1.0"⟩ (by decide) 3

/-- C4: a reaction event (added or removed) whose channel and ts resolve
to no registered prompt descriptor leaves the state store unchanged and
issues zero record-gateway calls. -/
theorem c4_unresolved_reaction_noop (names : String → String) (st : LocalState)
    (e : ReactionEvent) (added : Bool)
    (h : get_date_by_declaration_message st e.channel e.ts = none) :
    handle_reaction names st e added = (st, []) := by
  unfold handle_reaction
  split
  · rfl
  · rw [h]

/-- C4 witness: a reaction on an unregistered message of a concrete state. -/
theorem c4_unresolved_reaction_noop_witness :
    handle_reaction (fun u => u)
      (LocalState.mk [("2024/06/03", ⟨"C01", "111.222"⟩)] [])
      ⟨"message", "C01", "999.0", "U1", "microphone", 5⟩ true =
      (LocalState.mk [("2024/06/03", ⟨"C01", "111.222"⟩)] [], []) :=
  c4_unresolved_reaction_noop (fun u => u) _ _ true (by decide)

/-- C10: removing an attendance-status reaction glyph from a resolved
prompt message is a complete no-op: the state store is unchanged and no
record-gateway call is made (the attendance branch requires added, and an
attendance glyph is never the speaker glyph). -/
theorem c10_attendance_removal_noop (names : String → String) (st : LocalState)
    (e : ReactionEvent) (dk att : String)
    (hres : get_date_by_declaration_message st e.channel e.ts = some dk)
    (hatt : dictGet ATTENDANCE_EMOJIS e.reaction = some att) :
    handle_reaction names st e false = (st, []) := by
  have hne : e.reaction ≠ SPEAKER_EMOJI := by
    intro hr
    rw [hr] at hatt
    have hnone : dictGet ATTENDANCE_EMOJIS SPEAKER_EMOJI = none := by decide
    rw [hnone] at hatt
    exact Option.noConfusion hatt
  unfold handle_reaction
  split
  · rfl
  · rw [hres, hatt]

/-- C10 witness: removing the computer glyph from a registered prompt
message of a concrete state changes nothing and calls nothing. -/
theorem c10_attendance_removal_noop_witness :
    handle_reaction (fun u => u)
      (LocalState.mk [("2024/06/03", ⟨"C01", "111.222"⟩)] [])
      ⟨"message", "C01", "111.222", "U1", "computer", 5⟩ false =
      (LocalState.mk [("2024/06/03", ⟨"C01", "111.222"⟩)] [], []) :=
  c10_attendance_removal_noop (fun u => u) _ _ "2024/06/03" "オンライン"
    (by decide) (by decide)

/-- C2: update_speaker_flags rewrites exactly the speaker-flag column of
the rows of the given date key — a circle mark exactly for rows whose
user id is in the given id set, the empty string otherwise — leaves every
other cell and every other row unchanged, and is idempotent. -/
theorem c2_update_speaker_flags (rows : Sheet) (key : String) (ids : List String) :
    List.Forall₂
      (fun r r' =>
        r'.date = r.date ∧ r'.participant = r.participant ∧ r'.attendance = r.attendance ∧
        r'.topic = r.topic ∧ r'.user_id = r.user_id ∧
        (r.date = key → ((r.user_id ∈ ids → r'.flag = "○") ∧ (r.user_id ∉ ids → r'.flag = ""))) ∧
        (r.date ≠ key → r'.flag = r.flag))
      rows (update_speaker_flags rows key ids) ∧
    update_speaker_flags (update_speaker_flags rows key ids) key ids =
      update_speaker_flags rows key ids := by
  constructor
  · induction rows with
    | nil => exact List.Forall₂.nil
    | cons r rest ih =>
      refine List.Forall₂.cons ?_ ih
      by_cases hd : r.date = key
      · by_cases hm : r.user_id ∈ ids <;> simp [update_speaker_flags, hd, hm]
      · simp [update_speaker_flags, hd]
  · induction rows with
    | nil => rfl
    | cons r rest ih =>
      by_cases hd : r.date = key
      · by_cases hm : r.user_id ∈ ids <;>
          simp [update_speaker_flags, hd, hm] <;>
          simpa [update_speaker_flags] using ih
      · simp [update_speaker_flags, hd]
        simpa [update_speaker_flags] using ih

lemma find_row_eq_none {rows : Sheet} {dk uid : String}
    (h : ∀ r ∈ rows, ¬(r.date = dk ∧ r.user_id = uid)) : find_row rows dk uid = none := by
  induction rows with
  | nil => rfl
  | cons r rest ih =>
    rw [find_row, if_neg (h r (List.mem_cons_self r rest)),
      ih fun a ha => h a (List.mem_cons_of_mem r ha)]
    rfl

lemma find_row_append_singleton {rows : Sheet} {dk uid : String} (r : SheetRow)
    (h : find_row rows dk uid = none) (hr : r.date = dk ∧ r.user_id = uid) :
    find_row (rows ++ [r]) dk uid = some rows.length := by
  induction rows with
  | nil => simp [find_row, hr]
  | cons p rest ih =>
    rw [find_row] at h
    by_cases hp : p.date = dk ∧ p.user_id = uid
    · rw [if_pos hp] at h; exact absurd h (by simp)
    · rw [if_neg hp] at h
      have hrest : find_row rest dk uid = none := by
        cases hfr : find_row rest dk uid with
        | none => rfl
        | some i => rw [hfr] at h; exact absurd h (by simp)
      rw [List.cons_append, find_row, if_neg hp, ih hrest]
      simp

lemma listModify_append_singleton {α : Type} (l : List α) (r : α) (f : α → α) :
    listModify (l ++ [r]) l.length f = l ++ [f r] := by
  induction l with
  | nil => rfl
  | cons p rest ih => simp [listModify, ih]

/-- C3 counterexample: on a sheet holding one legacy row (no participant
id), the code's row matching finds nothing — there is no display-name
fallback, unlike the claim's spec-worded matching (find_row_spec), which
finds the legacy row — so two upserts for that participant leave two rows
whose (occurrence key, display name) coincide, not exactly one. -/
theorem c3_upsert_counterexample :
    find_row [⟨"2024/06/03", "Alice", "対面", "", "", ""⟩] "2024/06/03" "U1" = none ∧
    find_row_spec [⟨"2024/06/03", "Alice", "対面", "", "", ""⟩] "2024/06/03" "U1" "Alice" =
      some 0 ∧
    (upsert_attendance
        (upsert_attendance [⟨"2024/06/03", "Alice", "対面", "", "", ""⟩]
          "2024/06/03" "U1" "Alice" "オンライン")
        "2024/06/03" "U1" "Alice" "欠席").countP
      (fun r => decide (r.date = "2024/06/03" ∧ r.participant = "Alice")) = 2 := by
  decide

/-- C3 (amended): row matching is keyed solely by (occurrence key,
participant id); on a sheet with no row carrying that key pair, two
upserts with differing statuses append exactly one row, which holds the
latest status, and the rest of the sheet is untouched. -/
theorem c3_upsert_amended (rows : Sheet) (dk uid name att1 att2 : String)
    (h : ∀ r ∈ rows, ¬(r.date = dk ∧ r.user_id = uid)) :
    upsert_attendance (upsert_attendance rows dk uid name att1) dk uid name att2 =
      rows ++ [⟨dk, name, att2, "", "", uid⟩] ∧
    (upsert_attendance (upsert_attendance rows dk uid name att1) dk uid name att2).countP
      (fun r => decide (r.date = dk ∧ r.user_id = uid)) = 1 := by
  have h1 : find_row rows dk uid = none := find_row_eq_none h
  have e1 : upsert_attendance rows dk uid name att1 =
      rows ++ [⟨dk, name, att1, "", "", uid⟩] := by
    unfold upsert_attendance
    rw [h1]
  have h2 : find_row (rows ++ [⟨dk, name, att1, "", "", uid⟩]) dk uid = some rows.length :=
    find_row_append_singleton _ h1 ⟨rfl, rfl⟩
  have e2 : upsert_attendance (rows ++ [⟨dk, name, att1, "", "", uid⟩]) dk uid name att2 =
      rows ++ [⟨dk, name, att2, "", "", uid⟩] := by
    unfold upsert_attendance
    rw [h2]
    exact listModify_append_singleton rows ⟨dk, name, att1, "", "", uid⟩ _
  rw [e1, e2]
  refine ⟨rfl, ?_⟩
  rw [List.countP_append]
  have hz : rows.countP (fun r => decide (r.date = dk ∧ r.user_id = uid)) = 0 :=
    List.countP_eq_zero.mpr (by intro a ha; simpa using h a ha)
  rw [hz]
  simp

/-- C3 witness: the amended statement on a concrete sheet holding one
unrelated row. -/
theorem c3_upsert_amended_witness :
    upsert_attendance
        (upsert_attendance [⟨"2024/06/01", "Bob", "対面", "", "", "U9"⟩]
          "2024/06/03" "U1" "Alice" "対面")
        "2024/06/03" "U1" "Alice" "欠席" =
      [⟨"2024/06/01", "Bob", "対面", "", "", "U9"⟩,
       ⟨"2024/06/03", "Alice", "欠席", "", "", "U1"⟩] ∧
    (upsert_attendance
        (upsert_attendance [⟨"2024/06/01", "Bob", "対面", "", "", "U9"⟩]
          "2024/06/03" "U1" "Alice" "対面")
        "2024/06/03" "U1" "Alice" "欠席").countP
      (fun r => decide (r.date = "2024/06/03" ∧ r.user_id = "U1")) = 1 :=
  c3_upsert_amended [⟨"2024/06/01", "Bob", "対面", "", "", "U9"⟩]
    "2024/06/03" "U1" "Alice" "対面" "欠席" (by decide)

/-- C5: the thread-reply handler calls update_topic with the trimmed
remainder exactly under the spec's conditions — no subtype, resolvable
thread parent, literal topic marker, author currently in the top-2
roster, non-empty trimmed topic — and in every other case issues no
gateway call at all (and it never mutates the state store: the embedding
of the handler is read-only in LocalState, as is the source method). -/
theorem c5_thread_message_refines_spec (st : LocalState) (e : MessageEvent) :
    handle_thread_message st e = handle_thread_message_spec st e := by
  unfold handle_thread_message handle_thread_message_spec
  cases hsub : e.subtype with
  | some s => cases htts : e.thread_ts <;> simp
  | none =>
    cases htts : e.thread_ts with
    | none => simp
    | some tts =>
      by_cases hE : tts = ""
      · subst hE
        cases hres : get_date_by_declaration_message st e.channel "" <;> simp [hres]
      · cases hres : get_date_by_declaration_message st e.channel tts with
        | none => simp [hE, hres]
        | some dk =>
          by_cases hsw : e.text.startsWith TOPIC_MARKER
          · by_cases hmem : e.user ∈ get_speakers st dk
            · by_cases htp : (e.text.drop TOPIC_MARKER.length).trim = "" <;>
                simp [hE, hres, hsw, hmem, htp, threadTopic]
            · simp [hE, hres, hsw, hmem, threadTopic]
          · simp [hE, hres, hsw, threadTopic]

lemma stApply_day (k : String) (st : LocalState) (e : SpeakerEv) :
    (dictGet (stApply k st e).speaker_requests k).getD [] =
      dayApply ((dictGet st.speaker_requests k).getD []) e := by
  cases e with
  | add u t => simp [stApply, add_speaker_request, dayApply, dictGet_dictSet_self]
  | remove u => simp [stApply, remove_speaker_request, dayApply, dictGet_dictSet_self]

lemma runToggles_day (k : String) (evs : List SpeakerEv) :
    (dictGet (runToggles k evs).speaker_requests k).getD [] = runTrace evs := by
  unfold runToggles runTrace
  suffices h : ∀ (l : List SpeakerEv) (st : LocalState),
      (dictGet (l.foldl (stApply k) st).speaker_requests k).getD [] =
        l.foldl dayApply ((dictGet st.speaker_requests k).getD []) by
    simpa [emptyState, dictGet] using h evs emptyState
  intro l
  induction l with
  | nil => intro st; rfl
  | cons e rest ih =>
    intro st
    rw [List.foldl_cons, List.foldl_cons, ih, stApply_day]

lemma get_speakers_runToggles (k : String) (evs : List SpeakerEv) :
    get_speakers (runToggles k evs) k = speakersOfDay (runTrace evs) := by
  unfold get_speakers
  rw [runToggles_day]

/-- C6: re-adding a previously removed speaker overwrites requested_at
with the new token, and the roster order follows the new token: after
add(U1, t1), remove(U1), add(U1, t2), add(U2, t3) with t1 < t2 < t3, the
stored entry of U1 carries t2 and the roster is [U1, U2], sorted by t2
versus t3. -/
theorem c6_readd_resorts (k u1 u2 : String) (t1 t2 t3 : Nat)
    (hu : u1 ≠ u2) (h12 : t1 < t2) (h23 : t2 < t3) :
    dictGet ((dictGet (runToggles k
        [SpeakerEv.add u1 t1, SpeakerEv.remove u1, SpeakerEv.add u1 t2,
         SpeakerEv.add u2 t3]).speaker_requests k).getD []) u1 = some ⟨true, t2⟩ ∧
    get_speakers (runToggles k
        [SpeakerEv.add u1 t1, SpeakerEv.remove u1, SpeakerEv.add u1 t2,
         SpeakerEv.add u2 t3]) k = [u1, u2] := by
  have hday : runTrace
      [SpeakerEv.add u1 t1, SpeakerEv.remove u1, SpeakerEv.add u1 t2, SpeakerEv.add u2 t3] =
      [(u1, ⟨true, t2⟩), (u2, ⟨true, t3⟩)] := by
    simp [runTrace, dayApply, dictSet, dictModify, hu]
  constructor
  · rw [runToggles_day, hday]
    simp [dictGet]
  · rw [get_speakers_runToggles, hday]
    simp [speakersOfDay, chosenPairs, sortedActive, activePairs, leTok, Nat.le_of_lt h23]

/-- C6 witness: the scenario at concrete ids and tokens 1 < 2 < 3. -/
theorem c6_readd_resorts_witness :
    dictGet ((dictGet (runToggles "2024/06/03"
        [SpeakerEv.add "U1" 1, SpeakerEv.remove "U1", SpeakerEv.add "U1" 2,
         SpeakerEv.add "U2" 3]).speaker_requests "2024/06/03").getD []) "U1" =
      some ⟨true, 2⟩ ∧
    get_speakers (runToggles "2024/06/03"
        [SpeakerEv.add "U1" 1, SpeakerEv.remove "U1", SpeakerEv.add "U1" 2,
         SpeakerEv.add "U2" 3]) "2024/06/03" = ["U1", "U2"] :=
  c6_readd_resorts "2024/06/03" "U1" "U2" 1 2 3 (by decide) (by decide) (by decide)

lemma filter_tok_orderedInsert (t : Nat) (a : String × Nat) (l : List (String × Nat)) :
    (List.orderedInsert leTok a l).filter (fun p => decide (p.2 = t)) =
      if a.2 = t then a :: l.filter (fun p => decide (p.2 = t))
      else l.filter (fun p => decide (p.2 = t)) := by
  induction l with
  | nil => by_cases hat : a.2 = t <;> simp [List.orderedInsert, hat]
  | cons b l ih =>
    by_cases hle : leTok a b
    · by_cases hat : a.2 = t <;> simp [List.orderedInsert, hle, hat]
    · have hlt : b.2 < a.2 := Nat.lt_of_not_le hle
      by_cases hbt : b.2 = t
      · have hat : a.2 ≠ t := by omega
        simp [List.orderedInsert, hle, hbt, hat, ih]
      · by_cases hat : a.2 = t <;> simp [List.orderedInsert, hle, hbt, hat, ih]

lemma filter_tok_insertionSort (t : Nat) (l : List (String × Nat)) :
    (List.insertionSort leTok l).filter (fun p => decide (p.2 = t)) =
      l.filter (fun p => decide (p.2 = t)) := by
  induction l with
  | nil => rfl
  | cons a l ih =>
    rw [List.insertionSort, filter_tok_orderedInsert, ih]
    by_cases hat : a.2 = t <;> simp [hat]

lemma sortedActive_perm (day : SpeakerDay) :
    List.Perm (sortedActive day) (activePairs day) :=
  List.perm_insertionSort leTok (activePairs day)

lemma sortedActive_pairwise (day : SpeakerDay) : List.Pairwise leTok (sortedActive day) :=
  List.sorted_insertionSort leTok (activePairs day)

lemma chosenPairs_mem {day : SpeakerDay} {p : String × Nat} (hp : p ∈ chosenPairs day) :
    p ∈ activePairs day :=
  (sortedActive_perm day).mem_iff.mp ((List.take_sublist 2 (sortedActive day)).mem hp)

lemma chosenPairs_min {day : SpeakerDay} {p q : String × Nat} (hp : p ∈ chosenPairs day)
    (hq : q ∈ activePairs day) (hq2 : q ∉ chosenPairs day) : p.2 ≤ q.2 := by
  have hq' : q ∈ sortedActive day := (sortedActive_perm day).mem_iff.mpr hq
  have hsplit : chosenPairs day ++ (sortedActive day).drop 2 = sortedActive day :=
    List.take_append_drop 2 (sortedActive day)
  have hq'' : q ∈ chosenPairs day ++ (sortedActive day).drop 2 := by rw [hsplit]; exact hq'
  have hqd : q ∈ (sortedActive day).drop 2 := by
    cases List.mem_append.mp hq'' with
    | inl h => exact absurd h hq2
    | inr h => exact h
  have hsorted : List.Pairwise leTok (chosenPairs day ++ (sortedActive day).drop 2) := by
    rw [hsplit]; exact sortedActive_pairwise day
  exact (List.pairwise_append.mp hsorted).2.2 p hp q hqd

lemma chosenPairs_sorted (day : SpeakerDay) : List.Pairwise leTok (chosenPairs day) :=
  (sortedActive_pairwise day).sublist (List.take_sublist 2 (sortedActive day))

lemma chosenPairs_stable (day : SpeakerDay) (t : Nat) :
    (chosenPairs day).filter (fun p => decide (p.2 = t)) <+:
      (activePairs day).filter (fun p => decide (p.2 = t)) := by
  obtain ⟨tail, htail⟩ : chosenPairs day <+: sortedActive day :=
    List.take_prefix 2 (sortedActive day)
  refine ⟨tail.filter (fun p => decide (p.2 = t)), ?_⟩
  rw [← List.filter_append, htail]
  exact filter_tok_insertionSort t (activePairs day)

/-- C1 (amended): for every state store reachable by a toggle-event trace
on a key, get_speakers returns at most 2 participant ids — the active
entries with the smallest requested_at tokens, in ascending token order —
and ties between equal tokens are broken by the insertion order of the
entries in storage (the dict iteration order the stable sort preserves),
not by the arrival order of the latest activating events: for every token
value, the chosen entries with that token form a prefix of the active
entries with that token in storage order. -/
theorem c1_roster_amended (k : String) (evs : List SpeakerEv) :
    get_speakers (runToggles k evs) k = (chosenPairs (runTrace evs)).map Prod.fst ∧
    (get_speakers (runToggles k evs) k).length ≤ 2 ∧
    (∀ p ∈ chosenPairs (runTrace evs), p ∈ activePairs (runTrace evs)) ∧
    (∀ p ∈ chosenPairs (runTrace evs), ∀ q ∈ activePairs (runTrace evs),
      q ∉ chosenPairs (runTrace evs) → p.2 ≤ q.2) ∧
    List.Pairwise leTok (chosenPairs (runTrace evs)) ∧
    (∀ t : Nat, (chosenPairs (runTrace evs)).filter (fun p => decide (p.2 = t)) <+:
      (activePairs (runTrace evs)).filter (fun p => decide (p.2 = t))) := by
  have hg : get_speakers (runToggles k evs) k = speakersOfDay (runTrace evs) :=
    get_speakers_runToggles k evs
  refine ⟨hg, ?_, ?_, ?_, ?_, ?_⟩
  · rw [hg]
    unfold speakersOfDay chosenPairs
    rw [List.length_map, List.length_take]
    exact Nat.min_le_left 2 _
  · exact fun p hp => chosenPairs_mem hp
  · exact fun p hp q hq hq2 => chosenPairs_min hp hq hq2
  · exact chosenPairs_sorted (runTrace evs)
  · exact chosenPairs_stable (runTrace evs)

/-- C1 counterexample: on the trace add(U1, 3), remove(U1), add(U2, 3),
add(U1, 3), the standing requests of U1 and U2 carry equal tokens with
U2's request arriving before U1's re-add, so the claim's arrival-order
tie-break demands [U2, U1]; the code returns [U1, U2], breaking the tie
by insertion order in storage (U1 was first inserted into the dict). -/
theorem c1_roster_counterexample :
    get_speakers (runToggles "2024/06/03"
        [SpeakerEv.add "U1" 3, SpeakerEv.remove "U1", SpeakerEv.add "U2" 3,
         SpeakerEv.add "U1" 3]) "2024/06/03" = ["U1", "U2"] ∧
    getSpeakersByArrival
        [SpeakerEv.add "U1" 3, SpeakerEv.remove "U1", SpeakerEv.add "U2" 3,
         SpeakerEv.add "U1" 3] = ["U2", "U1"] ∧
    get_speakers (runToggles "2024/06/03"
        [SpeakerEv.add "U1" 3, SpeakerEv.remove "U1", SpeakerEv.add "U2" 3,
         SpeakerEv.add "U1" 3]) "2024/06/03" ≠
      getSpeakersByArrival
        [SpeakerEv.add "U1" 3, SpeakerEv.remove "U1", SpeakerEv.add "U2" 3,
         SpeakerEv.add "U1" 3] := by
  refine ⟨by decide, by decide, ?_⟩
  intro h
  rw [show getSpeakersByArrival
        [SpeakerEv.add "U1" 3, SpeakerEv.remove "U1", SpeakerEv.add "U2" 3,
         SpeakerEv.add "U1" 3] = ["U2", "U1"] from by decide] at h
  rw [show get_speakers (runToggles "2024/06/03"
        [SpeakerEv.add "U1" 3, SpeakerEv.remove "U1", SpeakerEv.add "U2" 3,
         SpeakerEv.add "U1" 3]) "2024/06/03" = ["U1", "U2"] from by decide] at h
  exact absurd h (by decide)

/-- C1 witness: the amended roster bound evaluated on a concrete trace. -/
theorem c1_roster_amended_witness :
    (get_speakers (runToggles "2024/06/03"
        [SpeakerEv.add "U1" 1, SpeakerEv.add "U2" 2, SpeakerEv.add "U3" 3])
      "2024/06/03").length ≤ 2 :=
  (c1_roster_amended "2024/06/03"
    [SpeakerEv.add "U1" 1, SpeakerEv.add "U2" 2, SpeakerEv.add "U3" 3]).2.1

/-- C2 witness: idempotence evaluated on a concrete sheet. -/
theorem c2_update_speaker_flags_witness :
    update_speaker_flags
        (update_speaker_flags
          [⟨"2024/06/03", "Alice", "対面", "", "", "U1"⟩,
           ⟨"2024/06/03", "Bob", "対面", "○", "", "U2"⟩,
           ⟨"2024/06/01", "Carol", "欠席", "○", "", "U3"⟩]
          "2024/06/03" ["U1"])
        "2024/06/03" ["U1"] =
      update_speaker_flags
        [⟨"2024/06/03", "Alice", "対面", "", "", "U1"⟩,
         ⟨"2024/06/03", "Bob", "対面", "○", "", "U2"⟩,
         ⟨"2024/06/01", "Carol", "欠席", "○", "", "U3"⟩]
        "2024/06/03" ["U1"] :=
  (c2_update_speaker_flags
    [⟨"2024/06/03", "Alice", "対面", "", "", "U1"⟩,
     ⟨"2024/06/03", "Bob", "対面", "○", "", "U2"⟩,
     ⟨"2024/06/01", "Carol", "欠席", "○", "", "U3"⟩]
    "2024/06/03" ["U1"]).2

/-- C5 witness: the refinement evaluated on a concrete state and message. -/
theorem c5_thread_message_refines_spec_witness :
    handle_thread_message
        (LocalState.mk [("2024/06/03", ⟨"C01", "111.222"⟩)]
          [("2024/06/03", [("U1", ⟨true, 1⟩)])])
        ⟨none, some "111.222", "C01", "テーマ：圏論入門", "U1"⟩ =
      handle_thread_message_spec
        (LocalState.mk [("2024/06/03", ⟨"C01", "111.222"⟩)]
          [("2024/06/03", [("U1", ⟨true, 1⟩)])])
        ⟨none, some "111.222", "C01", "テーマ：圏論入門", "U1"⟩ :=
  c5_thread_message_refines_spec
    (LocalState.mk [("2024/06/03", ⟨"C01", "111.222"⟩)]
      [("2024/06/03", [("U1", ⟨true, 1⟩)])])
    ⟨none, some "111.222", "C01", "テーマ：圏論入門", "U1"⟩
